import Mathlib

/-!
Verification of the big-trade analyzer (`big_trade_analyzer.py`) and its
companion script (`find_max_hand.py`).

The Python code is embedded shallowly:
* a pandas row becomes a `TradeRecord` with exact rational fields
  (machine floating point is modelled by exact arithmetic on `ℚ`);
* a pandas DataFrame becomes a `List TradeRecord`;
* boolean masks become `List.filter` with a `Bool`-valued predicate;
* the SQLite `portfolios` table (with its `UNIQUE(portfolio_name,
  stock_code)` constraint and `INSERT OR IGNORE`) becomes a duplicate-free
  list of `(portfolio_name, stock_code)` pairs with insert-if-absent.
-/

namespace BigTrade

/-- One executed transaction, as produced by the record loader
(`load_data`): `price` already carries the `/100` fixed-point correction,
`volume` is the raw share count, and `side` is the raw integer side code.
`Volume_Hand` is always recomputed from `volume`, never stored. -/
structure TradeRecord where
  price : ℚ
  volume : ℚ
  side : Int
deriving DecidableEq

/-- The derived column `Volume_Hand = Volume / 100` (1 lot = 100 shares). -/
def volumeHand (r : TradeRecord) : ℚ := r.volume / 100

/-- The derived column `Amount = Price * Volume` computed at the start of
`analyze_single_stock`. -/
def amount (r : TradeRecord) : ℚ := r.price * r.volume

/-- The buy mask of `analyze_single_stock`: `Side == 0` refined by the
`buy_logic` label through the `if/elif` chain; an unrecognized label leaves
the mask at `Side == 0`. -/
def buyMask (buy_logic : String) (buy_threshold buy_amount_threshold : ℚ)
    (r : TradeRecord) : Bool :=
  if buy_logic == "与and" then
    (r.side == 0) && (decide (volumeHand r ≥ buy_threshold) &&
      decide (amount r ≥ buy_amount_threshold))
  else if buy_logic == "或or" then
    (r.side == 0) && (decide (volumeHand r ≥ buy_threshold) ||
      decide (amount r ≥ buy_amount_threshold))
  else if buy_logic == "不考虑" then
    (r.side == 0) && decide (volumeHand r ≥ buy_threshold)
  else if buy_logic == "只考虑" then
    (r.side == 0) && decide (amount r ≥ buy_amount_threshold)
  else
    (r.side == 0)

/-- The sell mask of `analyze_single_stock`: `Side == 1` refined by the
`sell_logic` label, symmetric to `buyMask`. -/
def sellMask (sell_logic : String) (sell_threshold sell_amount_threshold : ℚ)
    (r : TradeRecord) : Bool :=
  if sell_logic == "与and" then
    (r.side == 1) && (decide (volumeHand r ≥ sell_threshold) &&
      decide (amount r ≥ sell_amount_threshold))
  else if sell_logic == "或or" then
    (r.side == 1) && (decide (volumeHand r ≥ sell_threshold) ||
      decide (amount r ≥ sell_amount_threshold))
  else if sell_logic == "不考虑" then
    (r.side == 1) && decide (volumeHand r ≥ sell_threshold)
  else if sell_logic == "只考虑" then
    (r.side == 1) && decide (amount r ≥ sell_amount_threshold)
  else
    (r.side == 1)

/-- The rows `big_buys = df[buy_mask]`. -/
def bigBuys (df : List TradeRecord) (buy_logic : String)
    (buy_threshold buy_amount_threshold : ℚ) : List TradeRecord :=
  df.filter (buyMask buy_logic buy_threshold buy_amount_threshold)

/-- The rows `big_sells = df[sell_mask]`. -/
def bigSells (df : List TradeRecord) (sell_logic : String)
    (sell_threshold sell_amount_threshold : ℚ) : List TradeRecord :=
  df.filter (sellMask sell_logic sell_threshold sell_amount_threshold)

/-- The per-instrument aggregate built by `analyze_single_stock`.  The
notional sums carry the `/10000` reporting scale; the cosmetic
`round(·, 2)` presentation step is not modelled (it does not change which
records qualify).  The display name (`get_stock_name`) is an independent
database lookup and is not modelled; `code` stands in for it. -/
structure Summary where
  code : String
  countBigBuy : Nat
  totalBigBuy : ℚ
  totalBigBuyAmount : ℚ
  countBigSell : Nat
  totalBigSell : ℚ
  totalBigSellAmount : ℚ
  totalVolume : ℚ
deriving DecidableEq

/-- Model of `analyze_single_stock(stock_code, df, buy_threshold, sell_threshold,
buy_amount_threshold, sell_amount_threshold, buy_logic, sell_logic)`:
returns a summary only when at least one big buy or big sell exists. -/
def analyzeSingleStock (stock_code : String) (df : List TradeRecord)
    (buy_threshold sell_threshold buy_amount_threshold sell_amount_threshold : ℚ)
    (buy_logic sell_logic : String) : Option Summary :=
  let big_buys := bigBuys df buy_logic buy_threshold buy_amount_threshold
  let big_sells := bigSells df sell_logic sell_threshold sell_amount_threshold
  if big_buys.length > 0 ∨ big_sells.length > 0 then
    some
      { code := stock_code
        countBigBuy := big_buys.length
        totalBigBuy := (big_buys.map volumeHand).sum
        totalBigBuyAmount := (big_buys.map amount).sum / 10000
        countBigSell := big_sells.length
        totalBigSell := (big_sells.map volumeHand).sum
        totalBigSellAmount := (big_sells.map amount).sum / 10000
        totalVolume := (df.map volumeHand).sum }
  else
    none

/-- The trade direction printed by `find_max_hand.py` (line 71):
`'买入' if side == 1 else '卖出' if side in [-1, -11] else '未知'`. -/
inductive Direction where
  | buy
  | sell
  | unknown
deriving DecidableEq

/-- Side decoding of the companion script `find_max_hand.py`. -/
def fmhSideDirection (side : Int) : Direction :=
  if side = 1 then Direction.buy
  else if side = -1 ∨ side = -11 then Direction.sell
  else Direction.unknown

section DetectorLemmas

lemma buyMask_and (bt bat : ℚ) (r : TradeRecord) :
    buyMask "与and" bt bat r =
      ((r.side == 0) && (decide (volumeHand r ≥ bt) && decide (amount r ≥ bat))) := rfl

lemma buyMask_or (bt bat : ℚ) (r : TradeRecord) :
    buyMask "或or" bt bat r =
      ((r.side == 0) && (decide (volumeHand r ≥ bt) || decide (amount r ≥ bat))) := rfl

lemma buyMask_vol (bt bat : ℚ) (r : TradeRecord) :
    buyMask "不考虑" bt bat r = ((r.side == 0) && decide (volumeHand r ≥ bt)) := rfl

lemma buyMask_amt (bt bat : ℚ) (r : TradeRecord) :
    buyMask "只考虑" bt bat r = ((r.side == 0) && decide (amount r ≥ bat)) := rfl

lemma sellMask_and (st sat : ℚ) (r : TradeRecord) :
    sellMask "与and" st sat r =
      ((r.side == 1) && (decide (volumeHand r ≥ st) && decide (amount r ≥ sat))) := rfl

lemma sellMask_or (st sat : ℚ) (r : TradeRecord) :
    sellMask "或or" st sat r =
      ((r.side == 1) && (decide (volumeHand r ≥ st) || decide (amount r ≥ sat))) := rfl

lemma sellMask_vol (st sat : ℚ) (r : TradeRecord) :
    sellMask "不考虑" st sat r = ((r.side == 1) && decide (volumeHand r ≥ st)) := rfl

lemma sellMask_amt (st sat : ℚ) (r : TradeRecord) :
    sellMask "只考虑" st sat r = ((r.side == 1) && decide (amount r ≥ sat)) := rfl

end DetectorLemmas

/-- C1: for every loaded table, a buy record (side 0) qualifies exactly by
the combinator rule with inclusive comparisons — under `与and` volume AND
amount must meet their thresholds, under `或or` either, under the default
`不考虑` only the volume, under `只考虑` only the amount (with
`amount = price * volumeShares`); so a record whose lot volume equals the
threshold qualifies.  The symmetric rule holds for sell records (side 1)
with the sell thresholds and sell combinator. -/
theorem C1_combinator_rule (df : List TradeRecord) (bt st bat sat : ℚ)
    (r : TradeRecord) (hr : r ∈ df) :
    (r ∈ bigBuys df "与and" bt bat ↔ r.side = 0 ∧ volumeHand r ≥ bt ∧ amount r ≥ bat)
    ∧ (r ∈ bigBuys df "或or" bt bat ↔ r.side = 0 ∧ (volumeHand r ≥ bt ∨ amount r ≥ bat))
    ∧ (r ∈ bigBuys df "不考虑" bt bat ↔ r.side = 0 ∧ volumeHand r ≥ bt)
    ∧ (r ∈ bigBuys df "只考虑" bt bat ↔ r.side = 0 ∧ amount r ≥ bat)
    ∧ (r ∈ bigSells df "与and" st sat ↔ r.side = 1 ∧ volumeHand r ≥ st ∧ amount r ≥ sat)
    ∧ (r ∈ bigSells df "或or" st sat ↔ r.side = 1 ∧ (volumeHand r ≥ st ∨ amount r ≥ sat))
    ∧ (r ∈ bigSells df "不考虑" st sat ↔ r.side = 1 ∧ volumeHand r ≥ st)
    ∧ (r ∈ bigSells df "只考虑" st sat ↔ r.side = 1 ∧ amount r ≥ sat) := by
  refine ⟨?_, ?_, ?_, ?_, ?_, ?_, ?_, ?_⟩ <;>
    simp [bigBuys, bigSells, List.mem_filter, hr, buyMask_and, buyMask_or,
      buyMask_vol, buyMask_amt, sellMask_and, sellMask_or, sellMask_vol,
      sellMask_amt, and_assoc]

/-- C1 witness: a buy record with exactly 5000 lots (500000 shares) at the
5000-lot threshold qualifies under every combinator with the amount
threshold met, as the theorem instantiates. -/
theorem C1_combinator_rule_witness :
    ((⟨10, 500000, 0⟩ : TradeRecord) ∈
        bigBuys [⟨10, 500000, 0⟩] "与and" 5000 1000000
      ↔ (⟨10, 500000, 0⟩ : TradeRecord).side = 0
        ∧ volumeHand ⟨10, 500000, 0⟩ ≥ 5000 ∧ amount ⟨10, 500000, 0⟩ ≥ 1000000)
    ∧ ((⟨10, 500000, 0⟩ : TradeRecord) ∈
        bigBuys [⟨10, 500000, 0⟩] "或or" 5000 1000000
      ↔ (⟨10, 500000, 0⟩ : TradeRecord).side = 0
        ∧ (volumeHand ⟨10, 500000, 0⟩ ≥ 5000 ∨ amount ⟨10, 500000, 0⟩ ≥ 1000000))
    ∧ ((⟨10, 500000, 0⟩ : TradeRecord) ∈
        bigBuys [⟨10, 500000, 0⟩] "不考虑" 5000 1000000
      ↔ (⟨10, 500000, 0⟩ : TradeRecord).side = 0 ∧ volumeHand ⟨10, 500000, 0⟩ ≥ 5000)
    ∧ ((⟨10, 500000, 0⟩ : TradeRecord) ∈
        bigBuys [⟨10, 500000, 0⟩] "只考虑" 5000 1000000
      ↔ (⟨10, 500000, 0⟩ : TradeRecord).side = 0 ∧ amount ⟨10, 500000, 0⟩ ≥ 1000000)
    ∧ ((⟨10, 500000, 0⟩ : TradeRecord) ∈
        bigSells [⟨10, 500000, 0⟩] "与and" 4000 900000
      ↔ (⟨10, 500000, 0⟩ : TradeRecord).side = 1
        ∧ volumeHand ⟨10, 500000, 0⟩ ≥ 4000 ∧ amount ⟨10, 500000, 0⟩ ≥ 900000)
    ∧ ((⟨10, 500000, 0⟩ : TradeRecord) ∈
        bigSells [⟨10, 500000, 0⟩] "或or" 4000 900000
      ↔ (⟨10, 500000, 0⟩ : TradeRecord).side = 1
        ∧ (volumeHand ⟨10, 500000, 0⟩ ≥ 4000 ∨ amount ⟨10, 500000, 0⟩ ≥ 900000))
    ∧ ((⟨10, 500000, 0⟩ : TradeRecord) ∈
        bigSells [⟨10, 500000, 0⟩] "不考虑" 4000 900000
      ↔ (⟨10, 500000, 0⟩ : TradeRecord).side = 1 ∧ volumeHand ⟨10, 500000, 0⟩ ≥ 4000)
    ∧ ((⟨10, 500000, 0⟩ : TradeRecord) ∈
        bigSells [⟨10, 500000, 0⟩] "只考虑" 4000 900000
      ↔ (⟨10, 500000, 0⟩ : TradeRecord).side = 1 ∧ amount ⟨10, 500000, 0⟩ ≥ 900000) :=
  C1_combinator_rule [⟨10, 500000, 0⟩] 5000 4000 1000000 900000
    ⟨10, 500000, 0⟩ (List.mem_singleton.mpr rfl)

/-- C9: a buy-logic label that is none of the four recognized ones falls
through every branch of the `if/elif` chain, so the buy mask degenerates to
the bare side test and every buy-side record qualifies, both thresholds
ignored; symmetrically for the sell side.  No branch rejects an unknown
label. -/
theorem C9_unknown_logic_ignores_thresholds (buy_logic sell_logic : String)
    (hb1 : buy_logic ≠ "与and") (hb2 : buy_logic ≠ "或or")
    (hb3 : buy_logic ≠ "不考虑") (hb4 : buy_logic ≠ "只考虑")
    (hs1 : sell_logic ≠ "与and") (hs2 : sell_logic ≠ "或or")
    (hs3 : sell_logic ≠ "不考虑") (hs4 : sell_logic ≠ "只考虑")
    (df : List TradeRecord) (bt st bat sat : ℚ) :
    bigBuys df buy_logic bt bat = df.filter (fun r => r.side == 0)
    ∧ bigSells df sell_logic st sat = df.filter (fun r => r.side == 1) := by
  constructor
  · unfold bigBuys
    congr 1
    funext r
    simp [buyMask, hb1, hb2, hb3, hb4]
  · unfold bigSells
    congr 1
    funext r
    simp [sellMask, hs1, hs2, hs3, hs4]

/-- C9 witness: the spec's label `Disabled` (unrecognized by the code) at
huge thresholds, on a table holding a tiny buy record and a tiny sell
record. -/
theorem C9_unknown_logic_ignores_thresholds_witness :
    bigBuys [⟨10, 100, 0⟩, ⟨10, 100, 1⟩] "Disabled" 99999 99999
        = List.filter (fun r => r.side == 0) [⟨10, 100, 0⟩, ⟨10, 100, 1⟩]
    ∧ bigSells [⟨10, 100, 0⟩, ⟨10, 100, 1⟩] "Disabled" 99999 99999
        = List.filter (fun r => r.side == 1) [⟨10, 100, 0⟩, ⟨10, 100, 1⟩] :=
  C9_unknown_logic_ignores_thresholds "Disabled" "Disabled"
    (by decide) (by decide) (by decide) (by decide)
    (by decide) (by decide) (by decide) (by decide)
    [⟨10, 100, 0⟩, ⟨10, 100, 1⟩] 99999 99999 99999 99999

/-- C10: in the analyzer a record is counted as a big buy only when
`Side == 0` and as a big sell only when `Side == 1`; a record with any
other side code can never qualify on either side yet still contributes its
lots to the summary's total traded volume.  The companion script
`find_max_hand.py` decodes the same field with the opposite convention
(1 = buy, -1 or -11 = sell), so for `Side == 1` the two programs assign
opposite directions. -/
theorem C10_side_encoding (df : List TradeRecord) (buy_logic sell_logic : String)
    (bt st bat sat : ℚ) (r : TradeRecord) :
    (r ∈ bigBuys df buy_logic bt bat → r.side = 0)
    ∧ (r ∈ bigSells df sell_logic st sat → r.side = 1)
    ∧ (r.side = 1 → fmhSideDirection r.side = Direction.buy
        ∧ r ∉ bigBuys df buy_logic bt bat)
    ∧ fmhSideDirection (-1) = Direction.sell
    ∧ fmhSideDirection (-11) = Direction.sell
    ∧ fmhSideDirection 0 = Direction.unknown
    ∧ (r.side ≠ 0 → r.side ≠ 1 →
        bigBuys (r :: df) buy_logic bt bat = bigBuys df buy_logic bt bat
        ∧ bigSells (r :: df) sell_logic st sat = bigSells df sell_logic st sat
        ∧ ∀ code s, analyzeSingleStock code (r :: df) bt st bat sat
              buy_logic sell_logic = some s →
            s.totalVolume = volumeHand r + (df.map volumeHand).sum) := by
  have hbuy : ∀ x, buyMask buy_logic bt bat x = true → x.side = 0 := by
    intro x hx
    unfold buyMask at hx
    repeat' split at hx
    all_goals simp only [Bool.and_eq_true, beq_iff_eq] at hx
    all_goals tauto
  have hsell : ∀ x, sellMask sell_logic st sat x = true → x.side = 1 := by
    intro x hx
    unfold sellMask at hx
    repeat' split at hx
    all_goals simp only [Bool.and_eq_true, beq_iff_eq] at hx
    all_goals tauto
  refine ⟨?_, ?_, ?_, rfl, rfl, rfl, ?_⟩
  · intro hmem
    exact hbuy r (List.mem_filter.mp hmem).2
  · intro hmem
    exact hsell r (List.mem_filter.mp hmem).2
  · intro h1
    constructor
    · simp [fmhSideDirection, h1]
    · intro hmem
      have := hbuy r (List.mem_filter.mp hmem).2
      omega
  · intro h0 h1
    have hb : buyMask buy_logic bt bat r = false := by
      cases hx : buyMask buy_logic bt bat r
      · rfl
      · exact absurd (hbuy r hx) h0
    have hs : sellMask sell_logic st sat r = false := by
      cases hx : sellMask sell_logic st sat r
      · rfl
      · exact absurd (hsell r hx) h1
    refine ⟨?_, ?_, ?_⟩
    · simp [bigBuys, List.filter_cons, hb]
    · simp [bigSells, List.filter_cons, hs]
    · intro code s hsome
      simp only [analyzeSingleStock] at hsome
      split at hsome
      · cases hsome
        simp
      · cases hsome

/-- C10 witness: a record with side 7 never qualifies but counts in total
volume, and the two programs disagree on side 1. -/
theorem C10_side_encoding_witness :
    ((⟨10, 100, 7⟩ : TradeRecord) ∈ bigBuys [⟨10, 100, 7⟩] "不考虑" 0 0
        → (⟨10, 100, 7⟩ : TradeRecord).side = 0)
    ∧ ((⟨10, 100, 7⟩ : TradeRecord) ∈ bigSells [⟨10, 100, 7⟩] "不考虑" 0 0
        → (⟨10, 100, 7⟩ : TradeRecord).side = 1)
    ∧ ((⟨10, 100, 7⟩ : TradeRecord).side = 1
        → fmhSideDirection (⟨10, 100, 7⟩ : TradeRecord).side = Direction.buy
          ∧ (⟨10, 100, 7⟩ : TradeRecord) ∉ bigBuys [⟨10, 100, 7⟩] "不考虑" 0 0)
    ∧ fmhSideDirection (-1) = Direction.sell
    ∧ fmhSideDirection (-11) = Direction.sell
    ∧ fmhSideDirection 0 = Direction.unknown
    ∧ ((⟨10, 100, 7⟩ : TradeRecord).side ≠ 0 → (⟨10, 100, 7⟩ : TradeRecord).side ≠ 1 →
        bigBuys [⟨10, 100, 7⟩] "不考虑" 0 0 = bigBuys [] "不考虑" 0 0
        ∧ bigSells [⟨10, 100, 7⟩] "不考虑" 0 0 = bigSells [] "不考虑" 0 0
        ∧ ∀ code s, analyzeSingleStock code [⟨10, 100, 7⟩] 0 0 0 0
              "不考虑" "不考虑" = some s →
            s.totalVolume = volumeHand ⟨10, 100, 7⟩
              + (([] : List TradeRecord).map volumeHand).sum) :=
  C10_side_encoding [] "不考虑" "不考虑" 0 0 0 0 ⟨10, 100, 7⟩

/-- The four real market segments of `market_data` (`全部股票` is the
synthetic aggregate and is kept separately in the load index). -/
inductive Segment where
  | mainSH
  | mainSZ
  | gem
  | star
deriving DecidableEq

/-- Python's `str.startswith`, modelled on the character list. -/
def strStartsWith (s p : String) : Bool := p.data.isPrefixOf s.data

/-- The classification chain used both for the pre-load grouping
(`load_data` lines 252-259) and for the per-file segment insert (lines
351-358): `68` → 科创板, else `6` → 沪市主板, else `3` → 创业板, else
`0` → 深市主板, else unclassified. -/
def classify (code : String) : Option Segment :=
  if strStartsWith code "68" then some Segment.star
  else if strStartsWith code "6" then some Segment.mainSH
  else if strStartsWith code "3" then some Segment.gem
  else if strStartsWith code "0" then some Segment.mainSZ
  else none

/-- C2: market classification is a deterministic function of the code with
first-match-wins precedence `68`, `6`, `3`, `0`, and the spec's four sample
codes land in STAR, MainBoard-SH, GEM and MainBoard-SZ respectively. -/
theorem C2_classifier_precedence (code : String) :
    (classify code = some Segment.star ↔ strStartsWith code "68" = true)
    ∧ (classify code = some Segment.mainSH ↔
        strStartsWith code "68" = false ∧ strStartsWith code "6" = true)
    ∧ (classify code = some Segment.gem ↔
        strStartsWith code "68" = false ∧ strStartsWith code "6" = false
          ∧ strStartsWith code "3" = true)
    ∧ (classify code = some Segment.mainSZ ↔
        strStartsWith code "68" = false ∧ strStartsWith code "6" = false
          ∧ strStartsWith code "3" = false ∧ strStartsWith code "0" = true)
    ∧ (classify code = none ↔
        strStartsWith code "68" = false ∧ strStartsWith code "6" = false
          ∧ strStartsWith code "3" = false ∧ strStartsWith code "0" = false)
    ∧ classify "688981" = some Segment.star
    ∧ classify "600000" = some Segment.mainSH
    ∧ classify "300750" = some Segment.gem
    ∧ classify "000001" = some Segment.mainSZ := by
  refine ⟨?_, ?_, ?_, ?_, ?_, by decide, by decide, by decide, by decide⟩ <;>
  · cases h68 : strStartsWith code "68" <;>
      cases h6 : strStartsWith code "6" <;>
        cases h3 : strStartsWith code "3" <;>
          cases h0 : strStartsWith code "0" <;>
            simp [classify, h68, h6, h3, h0]

/-- Descending-lexicographic comparison on the sort key of
`analyze_big_trades` line 472, `key=lambda x: (x[大买单总手数],
x[大卖单总手数]), reverse=True`: `rankKeyGe a b` holds when `a` may appear
no later than `b` in the ranked list. -/
def rankKeyGe (a b : Summary) : Bool :=
  decide (b.totalBigBuy < a.totalBigBuy) ||
    (decide (a.totalBigBuy = b.totalBigBuy) && decide (b.totalBigSell ≤ a.totalBigSell))

/-- Insert into a ranked list, keeping earlier-ranked summaries in place
(the stable placement Python's sort performs for equal keys). -/
def insertRanked (a : Summary) : List Summary → List Summary
  | [] => [a]
  | b :: l => if rankKeyGe b a then b :: insertRanked a l else a :: b :: l

/-- The in-place `market_results.sort(..., reverse=True)`, modelled as an
insertion sort: a permutation of the input ordered descending by
`(buy total lots, sell total lots)`. -/
def rankSort : List Summary → List Summary
  | [] => []
  | a :: l => insertRanked a (rankSort l)

/-- Per-segment body of `analyze_big_trades`: run `analyze_single_stock`
over the segment's stocks, keep the non-`None` summaries, sort ranked. -/
def analyzeMarket (stocks : List (String × List TradeRecord))
    (buy_threshold sell_threshold buy_amount_threshold sell_amount_threshold : ℚ)
    (buy_logic sell_logic : String) : List Summary :=
  rankSort (stocks.filterMap fun p =>
    analyzeSingleStock p.1 p.2 buy_threshold sell_threshold
      buy_amount_threshold sell_amount_threshold buy_logic sell_logic)

section RankingLemmas

lemma rankKeyGe_total (a b : Summary) : rankKeyGe a b = true ∨ rankKeyGe b a = true := by
  simp only [rankKeyGe, Bool.or_eq_true, Bool.and_eq_true, decide_eq_true_eq]
  rcases lt_trichotomy a.totalBigBuy b.totalBigBuy with h | h | h
  · exact Or.inr (Or.inl h)
  · rcases le_total a.totalBigSell b.totalBigSell with hs | hs
    · exact Or.inr (Or.inr ⟨h.symm, hs⟩)
    · exact Or.inl (Or.inr ⟨h, hs⟩)
  · exact Or.inl (Or.inl h)

lemma rankKeyGe_trans (a b c : Summary) (h1 : rankKeyGe a b = true)
    (h2 : rankKeyGe b c = true) : rankKeyGe a c = true := by
  simp only [rankKeyGe, Bool.or_eq_true, Bool.and_eq_true, decide_eq_true_eq] at *
  rcases h1 with h1 | ⟨e1, s1⟩
  · rcases h2 with h2 | ⟨e2, s2⟩
    · exact Or.inl (h2.trans h1)
    · exact Or.inl (e2 ▸ h1)
  · rcases h2 with h2 | ⟨e2, s2⟩
    · exact Or.inl (e1 ▸ h2)
    · exact Or.inr ⟨e1.trans e2, s2.trans s1⟩

lemma mem_insertRanked {x a : Summary} {l : List Summary} :
    x ∈ insertRanked a l ↔ x = a ∨ x ∈ l := by
  induction l with
  | nil => simp [insertRanked]
  | cons b t ih =>
    simp only [insertRanked]
    split
    · simp only [List.mem_cons, ih]
      tauto
    · simp only [List.mem_cons]
      try tauto

lemma perm_insertRanked (a : Summary) (l : List Summary) :
    (insertRanked a l).Perm (a :: l) := by
  induction l with
  | nil => exact List.Perm.refl _
  | cons b t ih =>
    simp only [insertRanked]
    split
    · exact (ih.cons b).trans (List.Perm.swap a b t)
    · exact List.Perm.refl _

lemma pairwise_insertRanked {a : Summary} {l : List Summary}
    (h : l.Pairwise (fun x y => rankKeyGe x y = true)) :
    (insertRanked a l).Pairwise (fun x y => rankKeyGe x y = true) := by
  induction l with
  | nil => simp [insertRanked]
  | cons b t ih =>
    rcases List.pairwise_cons.mp h with ⟨hb, ht⟩
    simp only [insertRanked]
    split
    · rename_i hba
      refine List.pairwise_cons.mpr ⟨?_, ih ht⟩
      intro c hc
      rcases mem_insertRanked.mp hc with rfl | hc
      · exact hba
      · exact hb c hc
    · rename_i hba
      have hab : rankKeyGe a b = true := by
        rcases rankKeyGe_total b a with hx | hx
        · exact absurd hx hba
        · exact hx
      refine List.pairwise_cons.mpr ⟨?_, h⟩
      intro c hc
      rcases List.mem_cons.mp hc with rfl | hc
      · exact hab
      · exact rankKeyGe_trans a b c hab (hb c hc)

lemma rankSort_pairwise (l : List Summary) :
    (rankSort l).Pairwise (fun x y => rankKeyGe x y = true) := by
  induction l with
  | nil => simp [rankSort]
  | cons a t ih => exact pairwise_insertRanked ih

lemma rankSort_perm (l : List Summary) : (rankSort l).Perm l := by
  induction l with
  | nil => exact List.Perm.refl _
  | cons a t ih => exact (perm_insertRanked a (rankSort t)).trans (ih.cons a)

end RankingLemmas

/-- C5: each segment's result list is a permutation of the segment's
per-instrument summaries sorted descending by the pair (buy total lots,
sell total lots) — buy lots primary, sell lots breaking ties, both
descending; and for two summaries tied at 100 buy lots with 50 vs 80 sell
lots, the one with 80 sell lots ranks first. -/
theorem C5_ranking_order (stocks : List (String × List TradeRecord))
    (bt st bat sat : ℚ) (bl sl : String) :
    (analyzeMarket stocks bt st bat sat bl sl).Perm
        (stocks.filterMap fun p => analyzeSingleStock p.1 p.2 bt st bat sat bl sl)
    ∧ (analyzeMarket stocks bt st bat sat bl sl).Pairwise
        (fun a b => b.totalBigBuy < a.totalBigBuy
          ∨ (a.totalBigBuy = b.totalBigBuy ∧ b.totalBigSell ≤ a.totalBigSell))
    ∧ rankSort [⟨"A", 1, 100, 0, 1, 50, 0, 150⟩, ⟨"B", 1, 100, 0, 1, 80, 0, 180⟩]
        = [⟨"B", 1, 100, 0, 1, 80, 0, 180⟩, ⟨"A", 1, 100, 0, 1, 50, 0, 150⟩] := by
  refine ⟨rankSort_perm _, ?_, ?_⟩
  · refine (rankSort_pairwise _).imp ?_
    intro a b hab
    simpa only [rankKeyGe, Bool.or_eq_true, Bool.and_eq_true, decide_eq_true_eq]
      using hab
  · norm_num [rankSort, insertRanked, rankKeyGe]

/-- C6: an instrument with no qualifying buy and no qualifying sell record
produces `None` (no Summary) and hence is dropped from its segment's result
list; consequently thresholds above every record's lot size (in the default
volume-only mode) make every segment's ranked list empty — a normal return,
not an error. -/
theorem C6_zero_result (stock_code : String) (df : List TradeRecord)
    (stocks : List (String × List TradeRecord)) (bt st bat sat : ℚ)
    (bl sl : String)
    (habove : ∀ c d, (c, d) ∈ stocks → ∀ r ∈ d, volumeHand r < bt ∧ volumeHand r < st) :
    (analyzeSingleStock stock_code df bt st bat sat bl sl = none ↔
      bigBuys df bl bt bat = [] ∧ bigSells df sl st sat = [])
    ∧ analyzeMarket stocks bt st bat sat "不考虑" "不考虑" = [] := by
  constructor
  · simp only [analyzeSingleStock]
    split
    · rename_i hpos
      simp only [reduceCtorEq, false_iff]
      intro ⟨h1, h2⟩
      rw [h1, h2] at hpos
      simp at hpos
    · rename_i hpos
      push_neg at hpos
      simp only [true_iff]
      constructor
      · exact List.length_eq_zero.mp (Nat.le_zero.mp hpos.1)
      · exact List.length_eq_zero.mp (Nat.le_zero.mp hpos.2)
  · unfold analyzeMarket
    have hnone : (stocks.filterMap fun p =>
        analyzeSingleStock p.1 p.2 bt st bat sat "不考虑" "不考虑") = [] := by
      rw [List.filterMap_eq_nil_iff]
      intro p hp
      have hr := habove p.1 p.2 hp
      simp only [analyzeSingleStock]
      have hb : bigBuys p.2 "不考虑" bt bat = [] := by
        rw [bigBuys, List.filter_eq_nil_iff]
        intro r hmem
        rw [buyMask_vol]
        have : ¬ volumeHand r ≥ bt := not_le.mpr (hr r hmem).1
        simp [this]
      have hs : bigSells p.2 "不考虑" st sat = [] := by
        rw [bigSells, List.filter_eq_nil_iff]
        intro r hmem
        rw [sellMask_vol]
        have : ¬ volumeHand r ≥ st := not_le.mpr (hr r hmem).2
        simp [this]
      rw [hb, hs]
      simp
    rw [hnone]
    rfl

/-- C6 witness: one MainBoard-SZ stock holding a 1-lot buy and a 1-lot
sell, analyzed at 5000-lot thresholds: the segment's result is empty. -/
theorem C6_zero_result_witness :
    (analyzeSingleStock "000001" [⟨10, 100, 0⟩, ⟨10, 100, 1⟩]
          5000 5000 0 0 "不考虑" "不考虑" = none ↔
      bigBuys [⟨10, 100, 0⟩, ⟨10, 100, 1⟩] "不考虑" 5000 0 = []
        ∧ bigSells [⟨10, 100, 0⟩, ⟨10, 100, 1⟩] "不考虑" 5000 0 = [])
    ∧ analyzeMarket [("000001", [⟨10, 100, 0⟩, ⟨10, 100, 1⟩])]
        5000 5000 0 0 "不考虑" "不考虑" = [] :=
  C6_zero_result "000001" [⟨10, 100, 0⟩, ⟨10, 100, 1⟩]
    [("000001", [⟨10, 100, 0⟩, ⟨10, 100, 1⟩])] 5000 5000 0 0 "不考虑" "不考虑"
    (by
      intro c d hm r hr
      simp only [List.mem_singleton, Prod.mk.injEq] at hm
      rcases hm with ⟨rfl, rfl⟩
      simp only [List.mem_cons, List.mem_singleton] at hr
      rcases hr with rfl | rfl | h
      · constructor <;> norm_num [volumeHand]
      · constructor <;> norm_num [volumeHand]
      · cases h)

/-- Binary64 rounding (round to nearest, ties to even) on exact rationals:
the rounding that the loader's float division and multiplication undergo in
the quota computation.  The exponent is unbounded here (overflow and
subnormals never arise in that computation), and the loader only ever
rounds nonnegative quantities, so nonpositive inputs are mapped to 0. -/
def floatRound (q : ℚ) : ℚ :=
  if q ≤ 0 then 0
  else
    let e : ℤ := Int.log 2 q
    let scale : ℚ := 2 ^ (e - 52)
    let m : ℚ := q / scale
    let mfl : ℤ := ⌊m⌋
    let frac : ℚ := m - (mfl : ℚ)
    let mr : ℤ :=
      if frac < 1 / 2 then mfl
      else if 1 / 2 < frac then mfl + 1
      else if mfl % 2 = 0 then mfl else mfl + 1
    (mr : ℚ) * scale

section FloatRoundLemmas

lemma int_log2_eq {q : ℚ} {e : ℤ} (hq : 0 < q) (h1 : (2:ℚ) ^ e ≤ q)
    (h2 : q < (2:ℚ) ^ (e + 1)) : Int.log 2 q = e := by
  have ha := (Int.zpow_le_iff_le_log (b := 2) one_lt_two hq).mp (by exact_mod_cast h1)
  have hb := (Int.lt_zpow_iff_log_lt (b := 2) one_lt_two hq).mp (by exact_mod_cast h2)
  omega

lemma floatRound_eq_of {q : ℚ} {e n : ℤ} (hq : 0 < q) (hlog : Int.log 2 q = e)
    (hfl : ⌊q / 2 ^ (e - 52)⌋ = n) (hfrac : q / 2 ^ (e - 52) - (n : ℚ) < 1 / 2) :
    floatRound q = (n : ℚ) * 2 ^ (e - 52) := by
  simp only [floatRound, if_neg (not_le.mpr hq), hlog, hfl]
  rw [if_pos hfrac]

lemma floatRound_nonneg (q : ℚ) : 0 ≤ floatRound q := by
  simp only [floatRound]
  split
  · exact le_refl 0
  · rename_i hq
    push_neg at hq
    have hs : (0:ℚ) < 2 ^ (Int.log 2 q - 52) := by positivity
    have hm : (0:ℚ) ≤ q / 2 ^ (Int.log 2 q - 52) := by positivity
    have hfl : (0:ℤ) ≤ ⌊q / 2 ^ (Int.log 2 q - 52)⌋ := Int.floor_nonneg.mpr hm
    have h0 : (0:ℤ) ≤
        (if q / 2 ^ (Int.log 2 q - 52) - (⌊q / 2 ^ (Int.log 2 q - 52)⌋ : ℚ) < 1 / 2 then
          ⌊q / 2 ^ (Int.log 2 q - 52)⌋
        else if 1 / 2 < q / 2 ^ (Int.log 2 q - 52) - (⌊q / 2 ^ (Int.log 2 q - 52)⌋ : ℚ) then
          ⌊q / 2 ^ (Int.log 2 q - 52)⌋ + 1
        else if ⌊q / 2 ^ (Int.log 2 q - 52)⌋ % 2 = 0 then ⌊q / 2 ^ (Int.log 2 q - 52)⌋
        else ⌊q / 2 ^ (Int.log 2 q - 52)⌋ + 1) := by
      repeat' split
      all_goals omega
    exact mul_nonneg (by exact_mod_cast h0) hs.le

lemma floatRound_le {q : ℚ} (hq : 0 < q) : floatRound q ≤ q + q / 2 ^ 53 := by
  simp only [floatRound, if_neg (not_le.mpr hq)]
  have hs : (0:ℚ) < 2 ^ (Int.log 2 q - 52) := by positivity
  have hq_eq : q / 2 ^ (Int.log 2 q - 52) * 2 ^ (Int.log 2 q - 52) = q :=
    div_mul_cancel₀ q hs.ne'
  have h2e : (2:ℚ) ^ Int.log 2 q ≤ q := by
    exact_mod_cast Int.zpow_log_le_self (b := 2) one_lt_two hq
  have hfl_le : (⌊q / 2 ^ (Int.log 2 q - 52)⌋ : ℚ) ≤ q / 2 ^ (Int.log 2 q - 52) :=
    Int.floor_le _
  have key : ((if q / 2 ^ (Int.log 2 q - 52) - (⌊q / 2 ^ (Int.log 2 q - 52)⌋ : ℚ) < 1 / 2 then
        ⌊q / 2 ^ (Int.log 2 q - 52)⌋
      else if 1 / 2 < q / 2 ^ (Int.log 2 q - 52) - (⌊q / 2 ^ (Int.log 2 q - 52)⌋ : ℚ) then
        ⌊q / 2 ^ (Int.log 2 q - 52)⌋ + 1
      else if ⌊q / 2 ^ (Int.log 2 q - 52)⌋ % 2 = 0 then ⌊q / 2 ^ (Int.log 2 q - 52)⌋
      else ⌊q / 2 ^ (Int.log 2 q - 52)⌋ + 1 : ℤ) : ℚ)
      ≤ q / 2 ^ (Int.log 2 q - 52) + 1 / 2 := by
    split
    · linarith
    · rename_i h1
      push_neg at h1
      split
      · rename_i h2
        push_cast
        linarith
      · rename_i h2
        push_neg at h2
        have he : q / 2 ^ (Int.log 2 q - 52) - (⌊q / 2 ^ (Int.log 2 q - 52)⌋ : ℚ) = 1 / 2 :=
          le_antisymm h2 h1
        split
        · linarith
        · push_cast
          linarith
  have hs2 : 2 ^ (Int.log 2 q - 52) / 2 ≤ q / 2 ^ 53 := by
    have hsv : (2:ℚ) ^ (Int.log 2 q - 52) = 2 ^ Int.log 2 q / 2 ^ (52:ℕ) := by
      rw [zpow_sub₀ (by norm_num : (2:ℚ) ≠ 0)]
      norm_num
    rw [hsv, div_div]
    norm_num
    gcongr
  calc _ ≤ (q / 2 ^ (Int.log 2 q - 52) + 1 / 2) * 2 ^ (Int.log 2 q - 52) :=
        mul_le_mul_of_nonneg_right key hs.le
    _ = q + 2 ^ (Int.log 2 q - 52) / 2 := by
        rw [add_mul, hq_eq]
        ring
    _ ≤ q + q / 2 ^ 53 := by linarith

end FloatRoundLemmas

/-- The per-segment file lists `market_files` built before sampling
(`load_data` lines 238-259); generic in the file representation. -/
structure MarketFiles (α : Type) where
  sh : List α
  sz : List α
  gem : List α
  star : List α

/-- Quota `mainboard_count = int(self.random_sample * 0.5)`: since `0.5` is an
exact binary double and the product of an integer below `2^53` with it is
exact, the float truncation is exactly integer division by 2. -/
def mainboardCount (random_sample : Nat) : Nat := random_sample / 2

/-- Quota `gem_count = int(self.random_sample * 0.25)`, exact for the same
reason. -/
def gemCount (random_sample : Nat) : Nat := random_sample / 4

/-- Quota `star_count = int(self.random_sample * 0.25)`. -/
def starCount (random_sample : Nat) : Nat := random_sample / 4

/-- Quota `sh_mainboard_count = int(mainboard_count * sh_mainboard_ratio)` with
`sh_mainboard_ratio = len(sh) / mainboard_total`, guarded by
`mainboard_total > 0`.  Both the division and the multiplication are
binary64 operations, modelled by `floatRound` (the integer operands convert
to float exactly below `2^53`); `int(...)` truncates the nonnegative
result, i.e. takes its floor.  This is NOT the exact
`quota * len(sh) / total` integer division: at `len(sh) = 1`,
`len(sz) = 48`, target 98 the float computation yields 0 where the exact
formula yields 1. -/
def shMainboardCount (α : Type) (mf : MarketFiles α) (random_sample : Nat) : Nat :=
  if mf.sh.length + mf.sz.length > 0 then
    (⌊floatRound ((mainboardCount random_sample : ℚ) *
        floatRound ((mf.sh.length : ℚ) /
          ((mf.sh.length : ℚ) + (mf.sz.length : ℚ))))⌋).toNat
  else 0

/-- Quota `sz_mainboard_count = mainboard_count - sh_mainboard_count`, guarded by
`mainboard_total > 0`. -/
def szMainboardCount (α : Type) (mf : MarketFiles α) (random_sample : Nat) : Nat :=
  if mf.sh.length + mf.sz.length > 0 then
    mainboardCount random_sample - shMainboardCount α mf random_sample
  else 0

/-- Sampling call `random.sample(l, k)` draws `k` distinct elements of `l` uniformly; it
is modelled as taking the first `k` elements of the (arbitrarily ordered)
population list — every property claimed of the selection (its size, being
duplicate-free, staying inside the population) is invariant under which
permutation the generator picks. -/
def randomSampleList (α : Type) (l : List α) (k : Nat) : List α := l.take k

/-- The sampling branch of `load_data` (lines 270-310): with
`random_sample == 0` all of `csv_files` is kept, else each segment
contributes `random.sample(segment, min(quota, len(segment)))`, each
guarded by `quota > 0`. -/
def sampleSelect (α : Type) (csv_files : List α) (mf : MarketFiles α)
    (random_sample : Nat) : List α :=
  if random_sample > 0 then
    (if shMainboardCount α mf random_sample > 0 then
        randomSampleList α mf.sh (min (shMainboardCount α mf random_sample) mf.sh.length)
      else [])
    ++ (if szMainboardCount α mf random_sample > 0 then
        randomSampleList α mf.sz (min (szMainboardCount α mf random_sample) mf.sz.length)
      else [])
    ++ (if gemCount random_sample > 0 then
        randomSampleList α mf.gem (min (gemCount random_sample) mf.gem.length)
      else [])
    ++ (if starCount random_sample > 0 then
        randomSampleList α mf.star (min (starCount random_sample) mf.star.length)
      else [])
  else csv_files

section SamplingLemmas

variable {α : Type}

lemma guardedPick_eq_take (l : List α) (k : Nat) :
    (if k > 0 then randomSampleList α l (min k l.length) else []) = l.take k := by
  rcases Nat.eq_zero_or_pos k with h | h
  · simp [h]
  · rw [if_pos h, randomSampleList]
    rcases le_total k l.length with hk | hk
    · rw [min_eq_left hk]
    · rw [min_eq_right hk, List.take_of_length_le hk,
        List.take_of_length_le (le_refl _)]

lemma floor_floatRound_mul_le (mb : ℕ) (x : ℚ) (hmb : (mb:ℚ) ≤ 2 ^ 51)
    (hx0 : 0 ≤ x) (hx1 : x ≤ 1) :
    (⌊floatRound ((mb : ℚ) * floatRound x)⌋).toNat ≤ mb := by
  have hfr0 : 0 ≤ floatRound x := floatRound_nonneg x
  have hfr1 : floatRound x ≤ 1 + 1 / 2 ^ 53 := by
    rcases eq_or_lt_of_le hx0 with hx | hx
    · rw [← hx]
      simp [floatRound]
      norm_num
    · have h1 : floatRound x ≤ x + x / 2 ^ 53 := floatRound_le hx
      have h2 : x / 2 ^ 53 ≤ 1 / 2 ^ 53 := by gcongr
      linarith
  have hp0 : (0:ℚ) ≤ (mb : ℚ) * floatRound x := mul_nonneg (by positivity) hfr0
  have hp1 : (mb : ℚ) * floatRound x ≤ (mb : ℚ) * (1 + 1 / 2 ^ 53) :=
    mul_le_mul_of_nonneg_left hfr1 (by positivity)
  rcases eq_or_lt_of_le hp0 with hp | hp
  · rw [← hp]
    have : floatRound 0 = 0 := by simp [floatRound]
    rw [this]
    simp
  · have h1 : floatRound ((mb : ℚ) * floatRound x)
        ≤ (mb : ℚ) * floatRound x + ((mb : ℚ) * floatRound x) / 2 ^ 53 :=
      floatRound_le hp
    have h2 : ((mb : ℚ) * floatRound x) / 2 ^ 53
        ≤ ((mb : ℚ) * (1 + 1 / 2 ^ 53)) / 2 ^ 53 := by gcongr
    have hcoef : (mb : ℚ) * (2 / 2 ^ 53 + 1 / 2 ^ 53 / 2 ^ 53)
        ≤ (2:ℚ) ^ 51 * (2 / 2 ^ 53 + 1 / 2 ^ 53 / 2 ^ 53) :=
      mul_le_mul_of_nonneg_right hmb (by norm_num)
    have hcoef2 : (2:ℚ) ^ 51 * (2 / 2 ^ 53 + 1 / 2 ^ 53 / 2 ^ 53) < 1 := by norm_num
    have hkey : floatRound ((mb : ℚ) * floatRound x) < (mb : ℚ) + 1 := by
      nlinarith [h1, h2, hp1, hcoef, hcoef2]
    have hfloor : ⌊floatRound ((mb : ℚ) * floatRound x)⌋ < (mb : ℤ) + 1 := by
      rw [Int.floor_lt]
      push_cast
      exact hkey
    rw [Int.toNat_le]
    omega

lemma shMainboardCount_le (mf : MarketFiles α) (t : Nat) (htb : t < 2 ^ 52) :
    shMainboardCount α mf t ≤ mainboardCount t := by
  unfold shMainboardCount
  split
  · rename_i hpos
    have hmb : ((mainboardCount t : ℕ) : ℚ) ≤ 2 ^ 51 := by
      have h : mainboardCount t ≤ 2 ^ 51 := by
        rw [mainboardCount]
        omega
      calc ((mainboardCount t : ℕ) : ℚ) ≤ ((2 ^ 51 : ℕ) : ℚ) := by exact_mod_cast h
        _ = 2 ^ 51 := by norm_num
    have htot : (0:ℚ) < (mf.sh.length : ℚ) + (mf.sz.length : ℚ) := by
      have : 0 < mf.sh.length + mf.sz.length := hpos
      exact_mod_cast this
    refine floor_floatRound_mul_le _ _ hmb (by positivity) ?_
    rw [div_le_one htot]
    have : (0:ℚ) ≤ (mf.sz.length : ℚ) := by positivity
    linarith
  · exact Nat.zero_le _

lemma floatRound_half : floatRound (1 / 2 : ℚ) = 1 / 2 := by
  have hlog : Int.log 2 (1 / 2 : ℚ) = -1 :=
    int_log2_eq (by norm_num) (by norm_num) (by norm_num)
  have hdiv : (1 / 2 : ℚ) / 2 ^ ((-1:ℤ) - 52) = 4503599627370496 := by
    norm_num [zpow_sub₀, zpow_neg]
  have hfl : ⌊(1 / 2 : ℚ) / 2 ^ ((-1:ℤ) - 52)⌋ = 4503599627370496 := by
    rw [hdiv, Int.floor_eq_iff]
    norm_num
  have hfrac : (1 / 2 : ℚ) / 2 ^ ((-1:ℤ) - 52) - ((4503599627370496 : ℤ) : ℚ) < 1 / 2 := by
    rw [hdiv]
    norm_num
  rw [floatRound_eq_of (by norm_num) hlog hfl hfrac]
  norm_num [zpow_sub₀, zpow_neg]

lemma floatRound_25 : floatRound (25 : ℚ) = 25 := by
  have hlog : Int.log 2 (25 : ℚ) = 4 :=
    int_log2_eq (by norm_num) (by norm_num) (by norm_num)
  have hdiv : (25 : ℚ) / 2 ^ ((4:ℤ) - 52) = 7036874417766400 := by
    norm_num [zpow_sub₀, zpow_neg]
  have hfl : ⌊(25 : ℚ) / 2 ^ ((4:ℤ) - 52)⌋ = 7036874417766400 := by
    rw [hdiv, Int.floor_eq_iff]
    norm_num
  have hfrac : (25 : ℚ) / 2 ^ ((4:ℤ) - 52) - ((7036874417766400 : ℤ) : ℚ) < 1 / 2 := by
    rw [hdiv]
    norm_num
  rw [floatRound_eq_of (by norm_num) hlog hfl hfrac]
  norm_num [zpow_sub₀, zpow_neg]

lemma floatRound_inv49 : floatRound (1 / 49 : ℚ) = 5882252574524729 / 2 ^ 58 := by
  have hlog : Int.log 2 (1 / 49 : ℚ) = -6 :=
    int_log2_eq (by norm_num) (by norm_num) (by norm_num)
  have hdiv : (1 / 49 : ℚ) / 2 ^ ((-6:ℤ) - 52) = 288230376151711744 / 49 := by
    norm_num [zpow_sub₀, zpow_neg]
  have hfl : ⌊(1 / 49 : ℚ) / 2 ^ ((-6:ℤ) - 52)⌋ = 5882252574524729 := by
    rw [hdiv, Int.floor_eq_iff]
    norm_num
  have hfrac : (1 / 49 : ℚ) / 2 ^ ((-6:ℤ) - 52) - ((5882252574524729 : ℤ) : ℚ) < 1 / 2 := by
    rw [hdiv]
    norm_num
  rw [floatRound_eq_of (by norm_num) hlog hfl hfrac]
  norm_num [zpow_sub₀, zpow_neg]

lemma floatRound_near_one :
    floatRound ((49 : ℚ) * (5882252574524729 / 2 ^ 58)) = 9007199254740991 / 2 ^ 53 := by
  have hq : (49 : ℚ) * (5882252574524729 / 2 ^ 58)
      = 288230376151711721 / 288230376151711744 := by norm_num
  rw [hq]
  have hlog : Int.log 2 (288230376151711721 / 288230376151711744 : ℚ) = -1 :=
    int_log2_eq (by norm_num) (by norm_num) (by norm_num)
  have hdiv : (288230376151711721 / 288230376151711744 : ℚ) / 2 ^ ((-1:ℤ) - 52)
      = 288230376151711721 / 32 := by
    norm_num [zpow_sub₀, zpow_neg]
  have hfl : ⌊(288230376151711721 / 288230376151711744 : ℚ) / 2 ^ ((-1:ℤ) - 52)⌋
      = 9007199254740991 := by
    rw [hdiv, Int.floor_eq_iff]
    norm_num
  have hfrac : (288230376151711721 / 288230376151711744 : ℚ) / 2 ^ ((-1:ℤ) - 52)
      - ((9007199254740991 : ℤ) : ℚ) < 1 / 2 := by
    rw [hdiv]
    norm_num
  rw [floatRound_eq_of (by norm_num) hlog hfl hfrac]
  norm_num [zpow_sub₀, zpow_neg]

lemma shMainboardCount_even_split (mf : MarketFiles α) (hsh : mf.sh.length = 50)
    (hsz : mf.sz.length = 50) : shMainboardCount α mf 100 = 25 := by
  rw [shMainboardCount, if_pos (by omega : mf.sh.length + mf.sz.length > 0), hsh, hsz]
  have hr : ((50:ℕ) : ℚ) / (((50:ℕ) : ℚ) + ((50:ℕ) : ℚ)) = 1 / 2 := by
    push_cast
    norm_num
  rw [hr, floatRound_half]
  have hmb : ((mainboardCount 100 : ℕ) : ℚ) = 50 := by norm_num [mainboardCount]
  rw [hmb, show (50 : ℚ) * (1 / 2) = 25 from by norm_num, floatRound_25]
  rw [show ⌊(25 : ℚ)⌋ = 25 from by rw [Int.floor_eq_iff]; norm_num]
  rfl

lemma shMainboardCount_failing :
    shMainboardCount ℕ ⟨[0], List.range' 1 48, [], []⟩ 98 = 0 := by
  unfold shMainboardCount
  dsimp only
  simp only [List.length_singleton, List.length_range']
  rw [if_pos (by norm_num)]
  have hr : ((1:ℕ) : ℚ) / (((1:ℕ) : ℚ) + ((48:ℕ) : ℚ)) = 1 / 49 := by
    push_cast
    norm_num
  rw [hr, floatRound_inv49]
  have hmb : ((mainboardCount 98 : ℕ) : ℚ) = 49 := by norm_num [mainboardCount]
  rw [hmb, floatRound_near_one]
  rw [show ⌊(9007199254740991 / 2 ^ 53 : ℚ)⌋ = 0 from by rw [Int.floor_eq_iff]; norm_num]
  rfl

lemma sampleSelect_length (csv : List α) (mf : MarketFiles α) (t : Nat) (ht : t > 0) :
    (sampleSelect α csv mf t).length =
      min (shMainboardCount α mf t) mf.sh.length
      + min (szMainboardCount α mf t) mf.sz.length
      + min (gemCount t) mf.gem.length
      + min (starCount t) mf.star.length := by
  rw [sampleSelect, if_pos ht, guardedPick_eq_take, guardedPick_eq_take,
    guardedPick_eq_take, guardedPick_eq_take]
  simp only [List.length_append, List.length_take]
  try omega

lemma sampleSelect_nodup (csv : List α) (mf : MarketFiles α) (t : Nat) (ht : t > 0)
    (h1 : mf.sh.Nodup) (h2 : mf.sz.Nodup) (h3 : mf.gem.Nodup) (h4 : mf.star.Nodup)
    (d12 : mf.sh.Disjoint mf.sz) (d13 : mf.sh.Disjoint mf.gem)
    (d14 : mf.sh.Disjoint mf.star) (d23 : mf.sz.Disjoint mf.gem)
    (d24 : mf.sz.Disjoint mf.star) (d34 : mf.gem.Disjoint mf.star) :
    (sampleSelect α csv mf t).Nodup := by
  rw [sampleSelect, if_pos ht, guardedPick_eq_take, guardedPick_eq_take,
    guardedPick_eq_take, guardedPick_eq_take]
  have sub1 := List.take_sublist (shMainboardCount α mf t) mf.sh
  have sub2 := List.take_sublist (szMainboardCount α mf t) mf.sz
  have sub3 := List.take_sublist (gemCount t) mf.gem
  have sub4 := List.take_sublist (starCount t) mf.star
  have dj : ∀ {l1 l2 p1 p2 : List α}, p1.Sublist l1 → p2.Sublist l2 →
      l1.Disjoint l2 → p1.Disjoint p2 := by
    intro l1 l2 p1 p2 s1 s2 hd a ha1 ha2
    exact hd (s1.subset ha1) (s2.subset ha2)
  refine List.Nodup.append (List.Nodup.append (List.Nodup.append
      (sub1.nodup h1) (sub2.nodup h2) (dj sub1 sub2 d12))
      (sub3.nodup h3) ?_) (sub4.nodup h4) ?_
  · rw [List.disjoint_append_left]
    exact ⟨dj sub1 sub3 d13, dj sub2 sub3 d23⟩
  · rw [List.disjoint_append_left, List.disjoint_append_left]
    exact ⟨⟨dj sub1 sub4 d14, dj sub2 sub4 d24⟩, dj sub3 sub4 d34⟩

end SamplingLemmas

/-- C3 amended: with target 0 the selector keeps all files; otherwise the
MainBoard quota is `targetTotal / 2` with GEM and STAR quotas
`targetTotal / 4`; the MainBoard quota splits as
`SH = int(float(quota * float(|SH| / (|SH| + |SZ|))))` — the float
computation, which can fall below the exact
`floor(quota * |SH| / (|SH| + |SZ|))` — and `SZ = quota - SH`, the two
sub-quotas summing exactly to the MainBoard quota; each segment contributes
`min(sub-quota, population)` files, nothing is selected twice (for
duplicate-free, pairwise-disjoint populations), and the total never exceeds
the target (stated for targets below `2^52`, where the integer-to-float
conversions in the quota arithmetic are exact); for target 100 over
populations 50/50/30/30 the float arithmetic is exact and the quotas are
50 = 25 + 25, 25, 25. -/
theorem C3_sampling_selector (α : Type) (csv : List α) (mf : MarketFiles α) (t : Nat)
    (ht : t > 0) (htb : t < 2 ^ 52)
    (h1 : mf.sh.Nodup) (h2 : mf.sz.Nodup) (h3 : mf.gem.Nodup) (h4 : mf.star.Nodup)
    (d12 : mf.sh.Disjoint mf.sz) (d13 : mf.sh.Disjoint mf.gem)
    (d14 : mf.sh.Disjoint mf.star) (d23 : mf.sz.Disjoint mf.gem)
    (d24 : mf.sz.Disjoint mf.star) (d34 : mf.gem.Disjoint mf.star) :
    sampleSelect α csv mf 0 = csv
    ∧ mainboardCount t = t / 2 ∧ gemCount t = t / 4 ∧ starCount t = t / 4
    ∧ (mf.sh.length + mf.sz.length > 0 →
        szMainboardCount α mf t = mainboardCount t - shMainboardCount α mf t
        ∧ shMainboardCount α mf t + szMainboardCount α mf t = mainboardCount t)
    ∧ (sampleSelect α csv mf t).length =
        min (shMainboardCount α mf t) mf.sh.length
        + min (szMainboardCount α mf t) mf.sz.length
        + min (gemCount t) mf.gem.length
        + min (starCount t) mf.star.length
    ∧ (sampleSelect α csv mf t).Nodup
    ∧ (sampleSelect α csv mf t).length ≤ t
    ∧ (mf.sh.length = 50 → mf.sz.length = 50 →
        mainboardCount 100 = 50 ∧ shMainboardCount α mf 100 = 25
        ∧ szMainboardCount α mf 100 = 25 ∧ gemCount 100 = 25 ∧ starCount 100 = 25) := by
  refine ⟨by simp [sampleSelect], rfl, rfl, rfl, ?_, sampleSelect_length csv mf t ht,
    sampleSelect_nodup csv mf t ht h1 h2 h3 h4 d12 d13 d14 d23 d24 d34, ?_, ?_⟩
  · intro hpos
    constructor
    · rw [szMainboardCount, if_pos hpos]
    · rw [szMainboardCount, if_pos hpos]
      have := shMainboardCount_le mf t htb
      omega
  · rw [sampleSelect_length csv mf t ht]
    have hsum : shMainboardCount α mf t + szMainboardCount α mf t ≤ mainboardCount t := by
      rw [szMainboardCount]
      split
      · have := shMainboardCount_le mf t htb
        omega
      · have := shMainboardCount_le mf t htb
        omega
    have hmb : mainboardCount t + gemCount t + starCount t ≤ t := by
      rw [mainboardCount, gemCount, starCount]
      omega
    have m1 : min (shMainboardCount α mf t) mf.sh.length ≤ shMainboardCount α mf t :=
      Nat.min_le_left _ _
    have m2 : min (szMainboardCount α mf t) mf.sz.length ≤ szMainboardCount α mf t :=
      Nat.min_le_left _ _
    have m3 : min (gemCount t) mf.gem.length ≤ gemCount t := Nat.min_le_left _ _
    have m4 : min (starCount t) mf.star.length ≤ starCount t := Nat.min_le_left _ _
    omega
  · intro hsh hsz
    have hsh25 := shMainboardCount_even_split mf hsh hsz
    refine ⟨rfl, hsh25, ?_, rfl, rfl⟩
    rw [szMainboardCount, if_pos (by omega : mf.sh.length + mf.sz.length > 0), hsh25]
    rfl

/-- C3 counterexample: at populations SH = 1, SZ = 48 and target 98 the
MainBoard quota is 49 and Python computes
`int(49 * (1/49))` in binary64: `float(1/49)` rounds down, the product
`49 * float(1/49) = 1 - 23/2^58` rounds to `1 - 2^-53 < 1`, and `int`
truncates to 0 — while the claimed exact formula
`floor(quota * |SH| / (|SH| + |SZ|))` gives 1 (and the SZ remainder 49,
not 48). -/
theorem C3_float_split_counterexample :
    shMainboardCount ℕ ⟨[0], List.range' 1 48, [], []⟩ 98 = 0
    ∧ mainboardCount 98 * ([0] : List ℕ).length
        / (([0] : List ℕ).length + (List.range' 1 48).length) = 1
    ∧ szMainboardCount ℕ ⟨[0], List.range' 1 48, [], []⟩ 98 = 49 := by
  refine ⟨shMainboardCount_failing, ?_, ?_⟩
  · simp [List.length_range', mainboardCount]
  · rw [szMainboardCount]
    rw [if_pos (by simp [List.length_range'] : (⟨[0], List.range' 1 48, [], []⟩ :
        MarketFiles ℕ).sh.length + (⟨[0], List.range' 1 48, [], []⟩ :
        MarketFiles ℕ).sz.length > 0)]
    rw [shMainboardCount_failing]
    rfl

/-- C3 witness: populations SH = 50, SZ = 50, GEM = 30, STAR = 30 as
pairwise-disjoint ranges and target 100. -/
theorem C3_sampling_selector_witness :
    sampleSelect ℕ (List.range' 0 200)
        ⟨List.range' 0 50, List.range' 100 50, List.range' 200 30, List.range' 300 30⟩ 0
      = List.range' 0 200
    ∧ mainboardCount 100 = 100 / 2 ∧ gemCount 100 = 100 / 4 ∧ starCount 100 = 100 / 4
    ∧ ((List.range' 0 50).length + (List.range' 100 50).length > 0 →
        szMainboardCount ℕ ⟨List.range' 0 50, List.range' 100 50, List.range' 200 30,
            List.range' 300 30⟩ 100
          = mainboardCount 100 - shMainboardCount ℕ ⟨List.range' 0 50, List.range' 100 50,
              List.range' 200 30, List.range' 300 30⟩ 100
        ∧ shMainboardCount ℕ ⟨List.range' 0 50, List.range' 100 50, List.range' 200 30,
              List.range' 300 30⟩ 100
            + szMainboardCount ℕ ⟨List.range' 0 50, List.range' 100 50, List.range' 200 30,
              List.range' 300 30⟩ 100
          = mainboardCount 100)
    ∧ (sampleSelect ℕ (List.range' 0 200) ⟨List.range' 0 50, List.range' 100 50,
          List.range' 200 30, List.range' 300 30⟩ 100).length =
        min (shMainboardCount ℕ ⟨List.range' 0 50, List.range' 100 50, List.range' 200 30,
            List.range' 300 30⟩ 100) (List.range' 0 50).length
        + min (szMainboardCount ℕ ⟨List.range' 0 50, List.range' 100 50, List.range' 200 30,
            List.range' 300 30⟩ 100) (List.range' 100 50).length
        + min (gemCount 100) (List.range' 200 30).length
        + min (starCount 100) (List.range' 300 30).length
    ∧ (sampleSelect ℕ (List.range' 0 200) ⟨List.range' 0 50, List.range' 100 50,
        List.range' 200 30, List.range' 300 30⟩ 100).Nodup
    ∧ (sampleSelect ℕ (List.range' 0 200) ⟨List.range' 0 50, List.range' 100 50,
        List.range' 200 30, List.range' 300 30⟩ 100).length ≤ 100
    ∧ ((List.range' 0 50).length = 50 → (List.range' 100 50).length = 50 →
        mainboardCount 100 = 50
        ∧ shMainboardCount ℕ ⟨List.range' 0 50, List.range' 100 50, List.range' 200 30,
            List.range' 300 30⟩ 100 = 25
        ∧ szMainboardCount ℕ ⟨List.range' 0 50, List.range' 100 50, List.range' 200 30,
            List.range' 300 30⟩ 100 = 25
        ∧ gemCount 100 = 25 ∧ starCount 100 = 25) := by
  have hd : ∀ a b m n : ℕ, a + m ≤ b →
      (List.range' a m).Disjoint (List.range' b n) := by
    intro a b m n hab x hx1 hx2
    rw [List.mem_range'_1] at hx1 hx2
    omega
  exact C3_sampling_selector ℕ (List.range' 0 200)
    ⟨List.range' 0 50, List.range' 100 50, List.range' 200 30, List.range' 300 30⟩ 100
    (by norm_num) (by norm_num)
    (List.nodup_range' 0 50) (List.nodup_range' 100 50)
    (List.nodup_range' 200 30) (List.nodup_range' 300 30)
    (hd 0 100 50 50 (by norm_num)) (hd 0 200 50 30 (by norm_num))
    (hd 0 300 50 30 (by norm_num)) (hd 100 200 50 30 (by norm_num))
    (hd 100 300 50 30 (by norm_num)) (hd 200 300 30 30 (by norm_num))

/-- A CSV file as the per-file loop of `load_data` sees it: `code` is the
trailing underscore-delimited token of the filename, `readable` tells
whether `pd.read_csv` succeeds (the `except` branch fires when not), the
three flags tell whether each required column survives name normalization,
and `rows` is the parsed table (price correction and `Volume_Hand` already
reflected in `TradeRecord`). -/
structure RawFile where
  code : String
  readable : Bool
  hasPrice : Bool
  hasVolume : Bool
  hasSide : Bool
  rows : List TradeRecord
deriving DecidableEq

/-- A file enters the index iff it reads and has all of `Volume`, `Side`,
`Price` (the order of the column test at line 338). -/
def loadable (f : RawFile) : Bool :=
  f.readable && f.hasVolume && f.hasSide && f.hasPrice

/-- The callback messages the per-file loop can emit: the unconditional
progress line `⏳ 加载进度: ...% (i/n)` at the top of each iteration, and
the `⚠️ 处理 ... 时出错` line of the `except` branch. -/
inductive LoadMsg where
  | progress (current total : Nat)
  | procError (code : String)
deriving DecidableEq

/-- The in-memory index after a load: `self.stock_data` plus the five
`self.market_data` dictionaries (`全部股票` is `allStocks`). -/
structure MarketIndex where
  stockData : List (String × List TradeRecord)
  allStocks : List (String × List TradeRecord)
  shMain : List (String × List TradeRecord)
  szMain : List (String × List TradeRecord)
  gemBoard : List (String × List TradeRecord)
  starBoard : List (String × List TradeRecord)
deriving DecidableEq

/-- The cleared index (`self.stock_data = {}` and friends, lines 314-317). -/
def emptyIndex : MarketIndex := ⟨[], [], [], [], [], []⟩

/-- Lines 348-361: store the table in `stock_data`, add it to the
classified segment through the same prefix chain as `classify` (no branch
for an unclassified code), then add it to `全部股票` unconditionally. -/
def insertStock (md : MarketIndex) (f : RawFile) : MarketIndex :=
  { stockData := md.stockData ++ [(f.code, f.rows)]
    allStocks := md.allStocks ++ [(f.code, f.rows)]
    shMain := if classify f.code = some Segment.mainSH then
        md.shMain ++ [(f.code, f.rows)] else md.shMain
    szMain := if classify f.code = some Segment.mainSZ then
        md.szMain ++ [(f.code, f.rows)] else md.szMain
    gemBoard := if classify f.code = some Segment.gem then
        md.gemBoard ++ [(f.code, f.rows)] else md.gemBoard
    starBoard := if classify f.code = some Segment.star then
        md.starBoard ++ [(f.code, f.rows)] else md.starBoard }

/-- The per-file loop of `load_data` (lines 319-365): each iteration first
emits the progress line, then reads the file (`except` → error message and
skip), then checks the required columns (`continue` with no message), then
inserts into the index.  The one-off messages before the loop (directory
scan, sampling report) are outside this loop and not modelled. -/
def loadLoop (total : Nat) : Nat → MarketIndex → List RawFile → MarketIndex × List LoadMsg
  | _, md, [] => (md, [])
  | i, md, f :: fs =>
    if f.readable = false then
      let rest := loadLoop total (i + 1) md fs
      (rest.1, LoadMsg.progress (i + 1) total :: LoadMsg.procError f.code :: rest.2)
    else if f.hasVolume = false ∨ f.hasSide = false ∨ f.hasPrice = false then
      let rest := loadLoop total (i + 1) md fs
      (rest.1, LoadMsg.progress (i + 1) total :: rest.2)
    else
      let rest := loadLoop total (i + 1) (insertStock md f) fs
      (rest.1, LoadMsg.progress (i + 1) total :: rest.2)

/-- Running the loop over the selected files against the cleared index. -/
def loadData (files : List RawFile) : MarketIndex × List LoadMsg :=
  loadLoop files.length 0 emptyIndex files

/-- The pre-sampling grouping of files by market (lines 245-259); the
`elif` chain there is the `classify` chain. -/
def marketFilesOf (files : List RawFile) : MarketFiles RawFile :=
  ⟨files.filter (fun f => classify f.code == some Segment.mainSH),
   files.filter (fun f => classify f.code == some Segment.mainSZ),
   files.filter (fun f => classify f.code == some Segment.gem),
   files.filter (fun f => classify f.code == some Segment.star)⟩

/-- File selection for one load: group by market, then sample. -/
def selectFiles (csv_files : List RawFile) (random_sample : Nat) : List RawFile :=
  sampleSelect RawFile csv_files (marketFilesOf csv_files) random_sample

section LoaderLemmas

lemma loadLoop_fst (total : Nat) (fs : List RawFile) : ∀ (i : Nat) (md : MarketIndex),
    (loadLoop total i md fs).1 =
      { stockData := md.stockData ++ ((fs.filter loadable).map fun f => (f.code, f.rows))
        allStocks := md.allStocks ++ ((fs.filter loadable).map fun f => (f.code, f.rows))
        shMain := md.shMain ++ ((fs.filter fun f =>
            loadable f && (classify f.code == some Segment.mainSH)).map
            fun f => (f.code, f.rows))
        szMain := md.szMain ++ ((fs.filter fun f =>
            loadable f && (classify f.code == some Segment.mainSZ)).map
            fun f => (f.code, f.rows))
        gemBoard := md.gemBoard ++ ((fs.filter fun f =>
            loadable f && (classify f.code == some Segment.gem)).map
            fun f => (f.code, f.rows))
        starBoard := md.starBoard ++ ((fs.filter fun f =>
            loadable f && (classify f.code == some Segment.star)).map
            fun f => (f.code, f.rows)) } := by
  induction fs with
  | nil => intro i md; simp [loadLoop]
  | cons f fs ih =>
    intro i md
    cases hr : f.readable with
    | false =>
      have hl : loadable f = false := by simp [loadable, hr]
      simp [loadLoop, hr, ih, hl, List.filter_cons]
    | true =>
      by_cases hcol : f.hasVolume = false ∨ f.hasSide = false ∨ f.hasPrice = false
      · have hl : loadable f = false := by
          rcases hcol with h | h | h <;> simp [loadable, h]
        simp [loadLoop, hr, hcol, ih, hl, List.filter_cons]
      · push_neg at hcol
        have bt : ∀ b : Bool, b ≠ false → b = true := by decide
        have hl : loadable f = true := by
          simp [loadable, hr, bt _ hcol.1, bt _ hcol.2.1, bt _ hcol.2.2]
      -- the loaded file lands in `stock_data`, `全部股票` and, when
      -- classified, its segment
        rcases hc : classify f.code with _ | seg
        · simp [loadLoop, hr, hcol, ih, hl, hc, List.filter_cons, insertStock]
        · cases seg <;>
            simp [loadLoop, hr, hcol, ih, hl, hc, List.filter_cons, insertStock]

lemma loadData_fst (files : List RawFile) :
    (loadData files).1 =
      { stockData := (files.filter loadable).map fun f => (f.code, f.rows)
        allStocks := (files.filter loadable).map fun f => (f.code, f.rows)
        shMain := ((files.filter fun f =>
            loadable f && (classify f.code == some Segment.mainSH)).map
            fun f => (f.code, f.rows))
        szMain := ((files.filter fun f =>
            loadable f && (classify f.code == some Segment.mainSZ)).map
            fun f => (f.code, f.rows))
        gemBoard := ((files.filter fun f =>
            loadable f && (classify f.code == some Segment.gem)).map
            fun f => (f.code, f.rows))
        starBoard := ((files.filter fun f =>
            loadable f && (classify f.code == some Segment.star)).map
            fun f => (f.code, f.rows)) } := by
  rw [loadData, loadLoop_fst]
  rfl

lemma mem_sampleSelect {α : Type} {csv x : _} {mf : MarketFiles α} {t : Nat}
    (ht : t > 0) (hx : x ∈ sampleSelect α csv mf t) :
    x ∈ mf.sh ∨ x ∈ mf.sz ∨ x ∈ mf.gem ∨ x ∈ mf.star := by
  rw [sampleSelect, if_pos ht, guardedPick_eq_take, guardedPick_eq_take,
    guardedPick_eq_take, guardedPick_eq_take] at hx
  simp only [List.mem_append] at hx
  rcases hx with ((h | h) | h) | h
  · exact Or.inl (List.take_subset _ _ h)
  · exact Or.inr (Or.inl (List.take_subset _ _ h))
  · exact Or.inr (Or.inr (Or.inl (List.take_subset _ _ h)))
  · exact Or.inr (Or.inr (Or.inr (List.take_subset _ _ h)))

end LoaderLemmas

/-- The real-segment component of the index for a given segment. -/
def segStocks (md : MarketIndex) : Segment → List (String × List TradeRecord)
  | Segment.mainSH => md.shMain
  | Segment.mainSZ => md.szMain
  | Segment.gem => md.gemBoard
  | Segment.star => md.starBoard

/-- C4 counterexample: a readable, well-formed file whose code `100000`
matches no classification prefix is loaded anyway — it lands in the raw
index and in the synthetic `全部股票` segment while belonging to no real
segment, contradicting the claim that such a code appears in no segment
including "All". -/
theorem C4_unclassified_counterexample :
    classify "100000" = none
    ∧ loadable ⟨"100000", true, true, true, true, []⟩ = true
    ∧ "100000" ∈ ((loadData [⟨"100000", true, true, true, true, []⟩]).1.allStocks.map
        Prod.fst)
    ∧ "100000" ∈ ((loadData [⟨"100000", true, true, true, true, []⟩]).1.stockData.map
        Prod.fst)
    ∧ "100000" ∉ ((loadData [⟨"100000", true, true, true, true, []⟩]).1.shMain.map
        Prod.fst)
    ∧ "100000" ∉ ((loadData [⟨"100000", true, true, true, true, []⟩]).1.szMain.map
        Prod.fst)
    ∧ "100000" ∉ ((loadData [⟨"100000", true, true, true, true, []⟩]).1.gemBoard.map
        Prod.fst)
    ∧ "100000" ∉ ((loadData [⟨"100000", true, true, true, true, []⟩]).1.starBoard.map
        Prod.fst) := by
  decide

/-- C4 amended: after any completed load, the raw index and the synthetic
"All" segment hold exactly the same instruments; an instrument found in a
real segment is classified to precisely that segment and is also in "All";
a code matching no prefix is in no real segment, but it is NOT rejected —
when loadable it still enters the index and "All".  In sampling mode
(target > 0) only classified files can be selected, so there every loaded
instrument does belong to exactly one real segment and to "All". -/
theorem C4_segment_membership (files : List RawFile) (c : String) :
    (loadData files).1.stockData = (loadData files).1.allStocks
    ∧ (∀ seg, c ∈ ((segStocks (loadData files).1 seg).map Prod.fst) →
        classify c = some seg ∧ c ∈ ((loadData files).1.allStocks.map Prod.fst))
    ∧ (classify c = none →
        ∀ seg, c ∉ ((segStocks (loadData files).1 seg).map Prod.fst))
    ∧ (∀ f, f ∈ files → loadable f = true →
        f.code ∈ ((loadData files).1.allStocks.map Prod.fst)
        ∧ ∀ seg, classify f.code = some seg →
            f.code ∈ ((segStocks (loadData files).1 seg).map Prod.fst))
    ∧ (∀ t, t > 0 → ∀ f, f ∈ selectFiles files t → classify f.code ≠ none) := by
  have hidx := loadData_fst files
  have hmem : ∀ seg, c ∈ ((segStocks (loadData files).1 seg).map Prod.fst) →
      classify c = some seg ∧ c ∈ ((loadData files).1.allStocks.map Prod.fst) := by
    intro seg hc
    rw [hidx] at hc ⊢
    cases seg <;>
    · simp only [segStocks, List.map_map, List.mem_map, List.mem_filter,
        Bool.and_eq_true, beq_iff_eq, Function.comp] at hc ⊢
      aesop
  refine ⟨by rw [hidx], hmem, ?_, ?_, ?_⟩
  · intro hnone seg hc
    have := (hmem seg hc).1
    rw [hnone] at this
    cases this
  · intro f hf hl
    rw [hidx]
    constructor
    · simp only [List.map_map, List.mem_map, List.mem_filter, Function.comp]
      exact ⟨f, ⟨hf, hl⟩, rfl⟩
    · intro seg hcls
      cases seg <;>
      · simp only [segStocks, List.map_map, List.mem_map, List.mem_filter,
          Bool.and_eq_true, beq_iff_eq, Function.comp] at hcls ⊢
        aesop
  · intro t ht f hsel
    rcases mem_sampleSelect ht hsel with h | h | h | h <;>
    · rw [marketFilesOf] at h
      simp only [List.mem_filter, beq_iff_eq] at h
      rw [h.2]
      intro hx
      cases hx

/-- C4 amended witness: a MainBoard-SH file `600000` at full load. -/
theorem C4_segment_membership_witness :
    (loadData [⟨"600000", true, true, true, true, []⟩]).1.stockData
        = (loadData [⟨"600000", true, true, true, true, []⟩]).1.allStocks
    ∧ (∀ seg, "600000" ∈ ((segStocks
            (loadData [⟨"600000", true, true, true, true, []⟩]).1 seg).map Prod.fst) →
        classify "600000" = some seg
        ∧ "600000" ∈ ((loadData [⟨"600000", true, true, true, true, []⟩]).1.allStocks.map
            Prod.fst))
    ∧ (classify "600000" = none →
        ∀ seg, "600000" ∉ ((segStocks
            (loadData [⟨"600000", true, true, true, true, []⟩]).1 seg).map Prod.fst))
    ∧ (∀ f, f ∈ [(⟨"600000", true, true, true, true, []⟩ : RawFile)] →
        loadable f = true →
        f.code ∈ ((loadData [⟨"600000", true, true, true, true, []⟩]).1.allStocks.map
            Prod.fst)
        ∧ ∀ seg, classify f.code = some seg →
            f.code ∈ ((segStocks
                (loadData [⟨"600000", true, true, true, true, []⟩]).1 seg).map Prod.fst))
    ∧ (∀ t, t > 0 → ∀ f, f ∈ selectFiles [⟨"600000", true, true, true, true, []⟩] t →
        classify f.code ≠ none) :=
  C4_segment_membership [⟨"600000", true, true, true, true, []⟩] "600000"

/-- C8 counterexample: a readable file missing the `Side` column is
skipped, yet the callback output is exactly the one generic progress line —
identical to the output for a fully loaded file — so the skip is not
reported through the progress callback. -/
theorem C8_skip_not_reported_counterexample :
    (loadData [⟨"000001", true, true, true, false, []⟩]).2
        = (loadData [⟨"000001", true, true, true, true, []⟩]).2
    ∧ (loadData [⟨"000001", true, true, true, false, []⟩]).2 = [LoadMsg.progress 1 1]
    ∧ (loadData [⟨"000001", true, true, true, false, []⟩]).1.allStocks = []
    ∧ (loadData [⟨"000001", true, true, true, true, []⟩]).1.allStocks
        = [("000001", [])] := by
  decide

/-- C8 amended: a readable file missing any of the required columns is not
loadable; it is skipped without aborting the batch (the loop continues on
the remaining files with the index untouched) and no data of it enters the
index; but the skip is NOT reported — that iteration emits exactly the
unconditional progress line, the same single message a successfully loaded
file produces. -/
theorem C8_missing_column_skip (total i : Nat) (md : MarketIndex) (f g : RawFile)
    (fs : List RawFile) (hfr : f.readable = true)
    (hcol : f.hasVolume = false ∨ f.hasSide = false ∨ f.hasPrice = false)
    (hg : loadable g = true) :
    loadable f = false
    ∧ (loadLoop total i md (f :: fs)).1 = (loadLoop total (i + 1) md fs).1
    ∧ (loadLoop total i md (f :: fs)).2
        = LoadMsg.progress (i + 1) total :: (loadLoop total (i + 1) md fs).2
    ∧ (loadLoop total i md (g :: fs)).2
        = LoadMsg.progress (i + 1) total
            :: (loadLoop total (i + 1) (insertStock md g) fs).2 := by
  have hl : loadable f = false := by
    rcases hcol with h | h | h <;> simp [loadable, h]
  have hgparts : g.readable = true ∧ g.hasVolume = true ∧ g.hasSide = true
      ∧ g.hasPrice = true := by
    rw [loadable] at hg
    simp only [Bool.and_eq_true] at hg
    exact ⟨hg.1.1.1, hg.1.1.2, hg.1.2, hg.2⟩
  refine ⟨hl, ?_, ?_, ?_⟩
  · simp [loadLoop, hfr, hcol]
  · simp [loadLoop, hfr, hcol]
  · simp [loadLoop, hgparts.1, hgparts.2.1, hgparts.2.2.1, hgparts.2.2.2]

/-- C8 amended witness: a file missing `Side` followed by a well-formed
file, compared with a fully loadable file in the same position. -/
theorem C8_missing_column_skip_witness :
    loadable ⟨"000001", true, true, true, false, []⟩ = false
    ∧ (loadLoop 2 0 emptyIndex [⟨"000001", true, true, true, false, []⟩,
          ⟨"600000", true, true, true, true, []⟩]).1
        = (loadLoop 2 1 emptyIndex [⟨"600000", true, true, true, true, []⟩]).1
    ∧ (loadLoop 2 0 emptyIndex [⟨"000001", true, true, true, false, []⟩,
          ⟨"600000", true, true, true, true, []⟩]).2
        = LoadMsg.progress 1 2
            :: (loadLoop 2 1 emptyIndex [⟨"600000", true, true, true, true, []⟩]).2
    ∧ (loadLoop 2 0 emptyIndex [⟨"000001", true, true, true, true, []⟩,
          ⟨"600000", true, true, true, true, []⟩]).2
        = LoadMsg.progress 1 2
            :: (loadLoop 2 1 (insertStock emptyIndex ⟨"000001", true, true, true, true, []⟩)
                [⟨"600000", true, true, true, true, []⟩]).2 :=
  C8_missing_column_skip 2 0 emptyIndex ⟨"000001", true, true, true, false, []⟩
    ⟨"000001", true, true, true, true, []⟩ [⟨"600000", true, true, true, true, []⟩]
    rfl (Or.inr (Or.inl rfl)) rfl

/-- Code normalization of `add_stock_to_portfolio` (line 175):
`stock_code[-6:] if len(stock_code) > 6 else stock_code`. -/
def portfolioCode (stock_code : String) : String :=
  if stock_code.length > 6 then stock_code.takeRight 6 else stock_code

/-- Model of `add_stock_to_portfolio`: the SQLite `portfolios` table with its
`UNIQUE(portfolio_name, stock_code)` constraint is modelled as a
duplicate-free list of `(portfolio_name, stock_code)` pairs, and
`INSERT OR IGNORE` as insert-if-absent.  The Python returns `True` on both
the inserted and the ignored path (the `PersistenceError` path of a broken
database is outside the model). -/
def addStockToPortfolio (store : List (String × String))
    (portfolio_name stock_code : String) : List (String × String) × Bool :=
  let code := portfolioCode stock_code
  if (portfolio_name, code) ∈ store then (store, true)
  else (store ++ [(portfolio_name, code)], true)

section PortfolioLemmas

lemma count_eq_one_of_nodup_mem {x : String × String} {l : List (String × String)}
    (h : l.Nodup) (hm : x ∈ l) : l.count x = 1 := by
  induction l with
  | nil => cases hm
  | cons a t ih =>
    rw [List.count_cons]
    rcases List.mem_cons.mp hm with rfl | hmt
    · have hx : x ∉ t := (List.nodup_cons.mp h).1
      rw [List.count_eq_zero.mpr hx]
      simp
    · have hne : ¬ a = x := by
        rintro rfl
        exact (List.nodup_cons.mp h).1 hmt
      rw [ih (List.nodup_cons.mp h).2 hmt]
      simp [hne]

lemma mem_addStockToPortfolio (store : List (String × String)) (p c : String) :
    (p, portfolioCode c) ∈ (addStockToPortfolio store p c).1 := by
  simp only [addStockToPortfolio]
  split
  · rename_i h
    exact h
  · exact List.mem_append_right _ (List.mem_singleton.mpr rfl)

lemma addStockToPortfolio_mem_noop (s : List (String × String)) (p c : String)
    (hm : (p, portfolioCode c) ∈ s) : addStockToPortfolio s p c = (s, true) := by
  simp only [addStockToPortfolio]
  rw [if_pos hm]

lemma addStockToPortfolio_absorb (store : List (String × String)) (p c : String) :
    (addStockToPortfolio ((addStockToPortfolio store p c).1) p c).1
      = (addStockToPortfolio store p c).1 := by
  rw [addStockToPortfolio_mem_noop _ p c (mem_addStockToPortfolio store p c)]

end PortfolioLemmas

/-- C7: adding an instrument to a watch list is idempotent — the duplicate
insert is a no-op that still reports success, the resulting store holds
exactly one `(list, code)` entry, remains duplicate-free, and any number of
repeated adds equals a single add. -/
theorem C7_addEntry_idempotent (store : List (String × String)) (p c : String)
    (hnd : store.Nodup) :
    (addStockToPortfolio ((addStockToPortfolio store p c).1) p c).1
        = (addStockToPortfolio store p c).1
    ∧ (addStockToPortfolio ((addStockToPortfolio store p c).1) p c).2 = true
    ∧ ((addStockToPortfolio store p c).1).count (p, portfolioCode c) = 1
    ∧ ((addStockToPortfolio store p c).1).Nodup
    ∧ ∀ n, (fun s => (addStockToPortfolio s p c).1)^[n + 1] store
        = (addStockToPortfolio store p c).1 := by
  have h2 : ∀ s : List (String × String), (addStockToPortfolio s p c).2 = true := by
    intro s
    simp only [addStockToPortfolio]
    split <;> rfl
  have hnodup : ((addStockToPortfolio store p c).1).Nodup := by
    simp only [addStockToPortfolio]
    split
    · exact hnd
    · rename_i h
      refine List.Nodup.append hnd (List.nodup_singleton _) ?_
      intro a ha hax
      rw [List.mem_singleton] at hax
      subst hax
      exact h ha
  have hcount : ((addStockToPortfolio store p c).1).count (p, portfolioCode c) = 1 :=
    count_eq_one_of_nodup_mem hnodup (mem_addStockToPortfolio store p c)
  refine ⟨addStockToPortfolio_absorb store p c, h2 _, hcount, hnodup, ?_⟩
  intro n
  induction n with
  | zero => rfl
  | succ m ih =>
    rw [Function.iterate_succ_apply', ih, addStockToPortfolio_absorb]

/-- C7 witness: two adds of `600000` to `自选股1` on the empty store. -/
theorem C7_addEntry_idempotent_witness :
    (addStockToPortfolio ((addStockToPortfolio [] "自选股1" "600000").1)
          "自选股1" "600000").1
        = (addStockToPortfolio [] "自选股1" "600000").1
    ∧ (addStockToPortfolio ((addStockToPortfolio [] "自选股1" "600000").1)
          "自选股1" "600000").2 = true
    ∧ ((addStockToPortfolio [] "自选股1" "600000").1).count
          ("自选股1", portfolioCode "600000") = 1
    ∧ ((addStockToPortfolio [] "自选股1" "600000").1).Nodup
    ∧ ∀ n, (fun s => (addStockToPortfolio s "自选股1" "600000").1)^[n + 1] []
        = (addStockToPortfolio [] "自选股1" "600000").1 :=
  C7_addEntry_idempotent [] "自选股1" "600000" List.nodup_nil

end BigTrade
